import Mathlib

/-!
A shallow embedding of the `close_already` crate (src/lib.rs and src/fs.rs).

`FastClose<H>` is a `repr(transparent)` wrapper holding exactly one handle.
On Windows the field is `ManuallyDrop<H>` (layout-identical to `H`); the
`Drop` impl extracts the handle with `ManuallyDrop::take` and submits it to
the chosen backend (`closer_pool.execute(move || drop(handle))` for the
threadpool backend); `into_inner` wraps `self` in `ManuallyDrop` (suppressing
the wrapper's own `Drop`) and takes the inner value out, returning it.  On
non-Windows targets the field is a plain `H`, `Drop::drop` is empty (so the
field is destroyed inline by the ordinary drop glue) and `into_inner`
performs the same suppress-then-extract dance with `ptr::read`.

We model the wrapper as a one-field structure and give each teardown path of
the source an explicit event trace, so that "destroyed or reclaimed exactly
once" is a statement about traces.
-/

/-- Observable events in the life of one wrapped handle:
`extract` models `ManuallyDrop::take` / `ptr::read` of the inner value,
`toBackend` models submitting the handle's closure to the backend
(`closer_pool.execute(move || drop(handle))`), `inlineDrop` models the
handle's destructor running inline on the current thread, and `reclaim`
models the handle being handed back to the caller by `into_inner`. -/
inductive Event (H : Type) where
  | extract (h : H)
  | toBackend (h : H)
  | inlineDrop (h : H)
  | reclaim (h : H)
deriving DecidableEq, Repr

/-- An event that settles the wrapped value: the handle is destroyed
(sent to the backend, or dropped inline) or reclaimed by the caller. -/
def Event.settles {H : Type} : Event H → Bool
  | .toBackend _ => true
  | .inlineDrop _ => true
  | .reclaim _ => true
  | .extract _ => false

def Event.isExtract {H : Type} : Event H → Bool
  | .extract _ => true
  | _ => false

def Event.isToBackend {H : Type} : Event H → Bool
  | .toBackend _ => true
  | _ => false

/-- `FastClose<H>`: a `repr(transparent)` single-field wrapper over one owned
handle.  On Windows the field is `ManuallyDrop<H>`, on other targets plain
`H`; both are layout- and value-identical to `H`, so one structure models
both, with the platform differences captured by the trace functions below. -/
structure FastClose (H : Type) where
  val : H
deriving DecidableEq, Repr

/-- `FastClose::new` / `FastCloseable::fast_close` / `FastClose::_new`:
all three just take ownership of the handle and wrap it (`_new` wraps it in
`ManuallyDrop::new` on Windows, which adds no data). Never fails. -/
def FastClose.new {H : Type} (h : H) : FastClose H :=
  ⟨h⟩

/-- Trace of the Windows `Drop` impl (threadpool backend, lib.rs:89-95):
`let handle = unsafe { self.get_handle() }` (a `ManuallyDrop::take`) followed
by `closer_pool.execute(move || drop(handle))`. -/
def FastClose.dropWindows {H : Type} (fc : FastClose H) : List (Event H) :=
  [Event.extract fc.val, Event.toBackend fc.val]

/-- Trace of the non-Windows `Drop` impl (lib.rs:233): the body is empty, so
the only effect is the ordinary drop glue destroying the field inline. -/
def FastClose.dropStub {H : Type} (fc : FastClose H) : List (Event H) :=
  [Event.inlineDrop fc.val]

/-- `FastClose::into_inner` (lib.rs:53-61 on Windows, lib.rs:210-218 on other
targets): wrap `self` in `ManuallyDrop` so the wrapper's own `Drop` (and the
field's drop glue) can no longer run, extract the inner value exactly once
(`ManuallyDrop::take` on Windows, `ptr::read` on the stub) and return it.
Both implementations observably coincide: one extraction, one reclamation,
no backend dispatch. -/
def FastClose.into_inner {H : Type} (fc : FastClose H) : H × List (Event H) :=
  (fc.val, [Event.extract fc.val, Event.reclaim fc.val])

/-- Destruction of a raw, unwrapped handle: its destructor runs inline, as
for any ordinary owned value. -/
def rawDrop {H : Type} (h : H) : List (Event H) :=
  [Event.inlineDrop h]

/-- Which implementation of `FastClose` is compiled in: `windows` (the
deferring one) or `nonWindows` (the passthrough stub). -/
inductive Platform where
  | windows
  | nonWindows
deriving DecidableEq, Repr

/-- The owner of a wrapper instance relinquishes it in exactly one of two
ways: it is dropped (goes out of scope, running the `Drop` impl), or it is
consumed by `into_inner`.  Rust's move semantics make these mutually
exclusive for a given instance. -/
inductive Disposal where
  | dropped
  | reclaimed
deriving DecidableEq, Repr

/-- The full event trace produced when a wrapper instance is relinquished on
the given platform by the given disposal. -/
def disposeTrace {H : Type} : Platform → Disposal → FastClose H → List (Event H)
  | .windows, .dropped, fc => fc.dropWindows
  | .nonWindows, .dropped, fc => fc.dropStub
  | _, .reclaimed, fc => fc.into_inner.snd

/-- `Deref::deref` (lib.rs:266-268): exposes the inner handle. -/
def FastClose.deref {H : Type} (fc : FastClose H) : H :=
  fc.val

/-- `<FastClose as PartialEq<H>>::eq` (lib.rs:290-292): compares the wrapper
against a raw handle by delegating to the inner handle through `deref`.
`eqH` stands for the handle type's own `PartialEq::eq`. -/
def FastClose.peq {H : Type} (eqH : H → H → Bool) (fc : FastClose H) (other : H) : Bool :=
  eqH fc.deref other

/-- Rust's `Clone` trait: an explicit duplication operation. -/
class RustClone (α : Type) where
  clone : α → α

/-- The `#[derive(Clone, ...)]` on both definitions of `FastClose`
(lib.rs:45 and lib.rs:198): the derived impl exists whenever `H : Clone`
and clones the single field (cloning a `ManuallyDrop<H>` clones the inner
`H`), producing a fresh wrapper around a fresh handle value. -/
instance instRustCloneFastClose {H : Type} [RustClone H] : RustClone (FastClose H) :=
  ⟨fun fc => ⟨RustClone.clone fc.val⟩⟩

/-- A cloneable mock handle type: the bound on `FastClose` is only
`H: Send + 'static`, so nothing stops a handle type from being `Clone`;
a plain number stands in for such a type. -/
instance instRustCloneNat : RustClone Nat :=
  ⟨fun n => n⟩

/-- The shape of Rust `Debug` output, structurally: a named node with a list
of field renderings.  `debug_tuple("FastClose").field(x).finish()` renders as
the node `FastClose` with one field; a struct like `File {..}` is the node
`File` with its own fields. -/
inductive DebugOut where
  | node (name : String) (fields : List DebugOut)

mutual

/-- Whether a rendering mentions the given name anywhere. -/
def DebugOut.mentions (s : String) : DebugOut → Bool
  | .node n fields => n == s || DebugOut.mentionsList s fields

def DebugOut.mentionsList (s : String) : List DebugOut → Bool
  | [] => false
  | d :: ds => DebugOut.mentions s d || DebugOut.mentionsList s ds

end

/-- `<FastClose as fmt::Debug>::fmt` (lib.rs:162-164):
`f.debug_tuple("FastClose").field(&self.0.deref()).finish()` — the single
field is the inner handle's own rendering (`deref` skips past the
`ManuallyDrop`), so the internal representation never appears. -/
def fcDebugFmt {H : Type} (dbgH : H → DebugOut) (fc : FastClose H) : DebugOut :=
  DebugOut.node "FastClose" [dbgH fc.val]

/-!
The filesystem model for src/fs.rs.  A filesystem is a finite map from paths
to file data (byte contents plus permission bits).  Handles opened by the
four convenience functions refer to the path they were opened on and read or
write the current state of that path, which is what makes the documented
`copy(p, p)` truncation hazard representable.  The standard library
primitives consumed by fs.rs (`File::open`, `File::create`, `OpenOptions`,
`read_to_end`, `read_to_string`, `write_all`, `io::copy`,
`set_permissions`, `metadata`) are modelled from their documented contracts,
as the spec scopes them out as external collaborators.
-/

/-- A file's state: its byte contents and its permission bits. -/
structure FileData where
  contents : List Nat
  perms : Nat
deriving DecidableEq, Repr

/-- A filesystem: an association list from paths to file data. -/
abbrev FS := List (String × FileData)

def FS.lookupFile : FS → String → Option FileData
  | [], _ => none
  | (q, fd) :: rest, p => if q = p then some fd else FS.lookupFile rest p

def FS.update : FS → String → FileData → FS
  | [], p, fd => [(p, fd)]
  | (q, old) :: rest, p, fd =>
    if q = p then (q, fd) :: rest else (q, old) :: FS.update rest p fd

/-- Permission bits a newly created file receives (a fixed default). -/
def defaultPerms : Nat := 438

/-- Opening a path for writing with create+truncate (`File::create`, or
`OpenOptions::new().write(true).create(true).truncate(true)`): the file's
contents become empty; an existing file keeps its permission bits, a new
one gets the default. -/
def createTruncate (fs : FS) (p : String) : FS :=
  FS.update fs p
    { contents := [],
      perms := ((FS.lookupFile fs p).map FileData.perms).getD defaultPerms }

/-- The I/O errors the model distinguishes: a failed open and a failed
text decode (`InvalidData`). -/
inductive IoError where
  | notFound
  | invalidData
deriving DecidableEq, Repr

/-- How a function disposed of a handle it opened: wrapped in `FastClose`
(so its close is deferred to the backend) or left raw (closed inline). -/
inductive HandleClose where
  | deferredClose
  | inlineClose
deriving DecidableEq, Repr

/-- Rust's `Vec<u8>`: the accumulated bytes plus the capacity, so that the
size hint's effect (capacity only, never contents) is visible. -/
structure Vec where
  data : List Nat
  cap : Nat
deriving DecidableEq, Repr

/-- `Vec::with_capacity(n)`: empty contents, capacity `n`. -/
def Vec.withCapacity (n : Nat) : Vec :=
  ⟨[], n⟩

/-- `Read::read_to_end` into this vector: appends every remaining byte of
the source, growing the capacity as needed. -/
def Vec.readToEnd (v : Vec) (bytes : List Nat) : Vec :=
  ⟨v.data ++ bytes, max v.cap (v.data.length + bytes.length)⟩

/-- Whether a byte is a UTF-8 continuation byte (`0x80..=0xBF`). -/
def isCont (b : Nat) : Bool :=
  128 ≤ b && b ≤ 191

/-- Decode one UTF-8 scalar value from the front of a byte list, returning
the code point and the remaining bytes; `none` on malformed input
(unexpected continuation, overlong form, surrogate, out of range, or
truncated sequence).  Modelled from the documented contract of the standard
library's UTF-8 validation, which fs.rs consumes via `read_to_string`. -/
def utf8DecodeOne : List Nat → Option (Nat × List Nat)
  | [] => none
  | b0 :: rest =>
    if b0 ≤ 127 then some (b0, rest)
    else if 194 ≤ b0 && b0 ≤ 223 then
      match rest with
      | b1 :: rest1 =>
        if isCont b1 then some ((b0 - 192) * 64 + (b1 - 128), rest1) else none
      | [] => none
    else if 224 ≤ b0 && b0 ≤ 239 then
      match rest with
      | b1 :: b2 :: rest2 =>
        let lo1 := if b0 = 224 then 160 else 128
        let hi1 := if b0 = 237 then 159 else 191
        if lo1 ≤ b1 && b1 ≤ hi1 && isCont b2 then
          some ((b0 - 224) * 4096 + (b1 - 128) * 64 + (b2 - 128), rest2)
        else none
      | _ => none
    else if 240 ≤ b0 && b0 ≤ 244 then
      match rest with
      | b1 :: b2 :: b3 :: rest3 =>
        let lo1 := if b0 = 240 then 144 else 128
        let hi1 := if b0 = 244 then 143 else 191
        if lo1 ≤ b1 && b1 ≤ hi1 && isCont b2 && isCont b3 then
          some ((b0 - 240) * 262144 + (b1 - 128) * 4096
            + (b2 - 128) * 64 + (b3 - 128), rest3)
        else none
      | _ => none
    else none

/-- Decode a whole byte list as UTF-8 (fuelled by the list length, which
bounds the number of scalars). -/
def utf8DecodeLoop : Nat → List Nat → Option (List Nat)
  | _, [] => some []
  | 0, _ :: _ => none
  | fuel + 1, b :: bs =>
    match utf8DecodeOne (b :: bs) with
    | none => none
    | some (cp, rest) =>
      match utf8DecodeLoop fuel rest with
      | none => none
      | some cps => some (cp :: cps)

/-- Decode a byte list as UTF-8 text: the list of code points, or `none` if
the bytes are not valid UTF-8. -/
def utf8Decode (bs : List Nat) : Option (List Nat) :=
  utf8DecodeLoop bs.length bs

/-- `close_already::fs::write` (fs.rs:110-118):
`File::create(path)?.fast_close().write_all(contents)` — create or truncate
the target, wrap the handle, write the bytes in full.  The pair's second
component records how each opened handle is closed. -/
def fsWrite (fs : FS) (p : String) (contents : List Nat) :
    Except IoError FS × List HandleClose :=
  let fs1 := createTruncate fs p
  let fd := (FS.lookupFile fs1 p).getD ⟨[], defaultPerms⟩
  let fs2 := FS.update fs1 p { fd with contents := contents }
  (Except.ok fs2, [HandleClose.deferredClose])

/-- `close_already::fs::read` (fs.rs:62-71):
open the file, wrap the handle in `FastClose`, query `metadata` for a size
hint (best effort: `metaOk` says whether the query succeeds; `.ok()`
discards any error), allocate `Vec::with_capacity(size.unwrap_or(0))` and
`read_to_end` into it. -/
def fsRead (metaOk : Bool) (fs : FS) (p : String) :
    Except IoError (List Nat) × List HandleClose :=
  match FS.lookupFile fs p with
  | none => (Except.error IoError.notFound, [])
  | some fd =>
    let size : Option Nat := if metaOk then some fd.contents.length else none
    let bytes := Vec.withCapacity (size.getD 0)
    let bytes2 := bytes.readToEnd fd.contents
    (Except.ok bytes2.data, [HandleClose.deferredClose])

/-- `close_already::fs::read_to_string` (fs.rs:85-94):
`let mut file = File::open(path)?;` — note: the handle is NOT wrapped in
`FastClose` (no `.fast_close()` call, unlike `read`, `write` and `copy`),
so it is closed inline when `inner` returns.  Then the same best-effort
size hint, and `read_to_string`, which fails with an `InvalidData` error
when the bytes are not valid UTF-8 and otherwise appends the decoded
text. -/
def fsReadToString (metaOk : Bool) (fs : FS) (p : String) :
    Except IoError (List Nat) × List HandleClose :=
  match FS.lookupFile fs p with
  | none => (Except.error IoError.notFound, [])
  | some fd =>
    let size : Option Nat := if metaOk then some fd.contents.length else none
    let _cap := size.getD 0
    match utf8Decode fd.contents with
    | none => (Except.error IoError.invalidData, [HandleClose.inlineClose])
    | some cps => (Except.ok cps, [HandleClose.inlineClose])

/-- `close_already::fs::copy` (fs.rs:34-48):
open `from` for reading (wrapped), open `to` with write+create+truncate
(wrapped), stream every byte across with `io::copy` (both handles read and
write the current state of their paths, which is why `copy(p, p)` sees the
already-truncated source), then `set_permissions(to, from.metadata()?
.permissions())`.  Returns the number of bytes copied. -/
def fsCopy (fs : FS) (src : String) (dst : String) :
    Except IoError (Nat × FS) × List HandleClose :=
  match FS.lookupFile fs src with
  | none => (Except.error IoError.notFound, [])
  | some _ =>
    let fs1 := createTruncate fs dst
    match FS.lookupFile fs1 src with
    | none =>
      (Except.error IoError.notFound,
        [HandleClose.deferredClose, HandleClose.deferredClose])
    | some fdSrc =>
      let data := fdSrc.contents
      let fdDst := (FS.lookupFile fs1 dst).getD ⟨[], defaultPerms⟩
      let fs2 := FS.update fs1 dst { fdDst with contents := data }
      match FS.lookupFile fs2 src with
      | none =>
        (Except.error IoError.notFound,
          [HandleClose.deferredClose, HandleClose.deferredClose])
      | some fdSrc2 =>
        let fdDst2 := (FS.lookupFile fs2 dst).getD ⟨[], defaultPerms⟩
        let fs3 := FS.update fs2 dst { fdDst2 with perms := fdSrc2.perms }
        (Except.ok (data.length, fs3),
          [HandleClose.deferredClose, HandleClose.deferredClose])

/-! Helper lemmas about the filesystem map. -/

theorem FS.lookupFile_update_self (fs : FS) (p : String) (fd : FileData) :
    FS.lookupFile (FS.update fs p fd) p = some fd := by
  induction fs with
  | nil => simp [FS.update, FS.lookupFile]
  | cons hd rest ih =>
    obtain ⟨q, old⟩ := hd
    by_cases hqp : q = p
    · simp [FS.update, FS.lookupFile, hqp]
    · simp [FS.update, FS.lookupFile, hqp, ih]

theorem FS.lookupFile_update_other (fs : FS) (p q : String) (fd : FileData)
    (h : q ≠ p) :
    FS.lookupFile (FS.update fs p fd) q = FS.lookupFile fs q := by
  induction fs with
  | nil => simp [FS.update, FS.lookupFile, Ne.symm h]
  | cons hd rest ih =>
    obtain ⟨r, old⟩ := hd
    by_cases hrp : r = p
    · subst hrp
      simp [FS.update, FS.lookupFile, h, Ne.symm h]
    · by_cases hrq : r = q
      · subst hrq
        simp [FS.update, FS.lookupFile, hrp]
      · simp [FS.update, FS.lookupFile, hrp, hrq, ih]

/-- C1: every disposal path of a wrapper settles the wrapped value exactly
once — the drop path extracts it once and hands it to the backend (Windows)
or destroys it inline (stub), and `into_inner` extracts it once and hands
it back to the caller; reclamation never dispatches to the backend, and a
given instance is relinquished by exactly one disposal. -/
theorem wrapped_value_settled_once (H : Type) (plat : Platform) (d : Disposal)
    (fc : FastClose H) :
    (disposeTrace plat d fc).countP Event.settles = 1
    ∧ (disposeTrace plat d fc).countP Event.isExtract ≤ 1
    ∧ (disposeTrace plat Disposal.reclaimed fc).countP Event.isToBackend = 0 := by
  cases plat <;> cases d <;>
    simp [disposeTrace, FastClose.dropWindows, FastClose.dropStub,
      FastClose.into_inner, List.countP_cons, List.countP_nil,
      Event.settles, Event.isExtract, Event.isToBackend]

/-- C2: `into_inner (FastClose::new h)` returns exactly `h`, its trace
contains no backend dispatch, and the returned handle is thereafter subject
to normal (inline) destruction. -/
theorem into_inner_returns_handle (H : Type) (h : H) :
    (FastClose.new h).into_inner.fst = h
    ∧ (FastClose.new h).into_inner.snd.countP Event.isToBackend = 0
    ∧ rawDrop (FastClose.new h).into_inner.fst = [Event.inlineDrop h] := by
  refine ⟨rfl, ?_, rfl⟩
  simp [FastClose.new, FastClose.into_inner, List.countP_cons, List.countP_nil,
    Event.isToBackend]

/-- C3 (the code's divergence, evaluated): of the four convenience
operations, `read`, `write` and `copy` wrap every handle they open in
`FastClose` (deferred close), but `read_to_string` opens its file without
`.fast_close()`, so its handle is closed inline — the only one of the four
not wrapped. -/
theorem read_to_string_handle_not_wrapped :
    (fsReadToString true [("a", ⟨[104, 105], 438⟩)] "a").snd
      = [HandleClose.inlineClose]
    ∧ (fsRead true [("a", ⟨[104, 105], 438⟩)] "a").snd
      = [HandleClose.deferredClose]
    ∧ (fsWrite [] "a" [104]).snd = [HandleClose.deferredClose]
    ∧ (fsCopy [("a", ⟨[104], 438⟩)] "a" "b").snd
      = [HandleClose.deferredClose, HandleClose.deferredClose] := by
  decide

/-- C5: writing `data` to a path and then reading that path back (with no
interleaving modification) succeeds and returns exactly `data`, including
for empty `data`, whatever the fate of the read-side size-hint query. -/
theorem write_then_read_roundtrip (metaOk : Bool) (fs : FS) (p : String)
    (data : List Nat) (fs2 : FS)
    (hw : (fsWrite fs p data).fst = Except.ok fs2) :
    (fsRead metaOk fs2 p).fst = Except.ok data := by
  simp only [fsWrite, Except.ok.injEq] at hw
  subst hw
  simp [fsRead, createTruncate, FS.lookupFile_update_self, Vec.withCapacity,
    Vec.readToEnd]

theorem write_then_read_roundtrip_witness :
    (fsRead true [("a", ⟨[7, 8], defaultPerms⟩)] "a").fst = Except.ok [7, 8] :=
  write_then_read_roundtrip true [] "a" [7, 8]
    [("a", ⟨[7, 8], defaultPerms⟩)] rfl

/-- C6: for a distinct readable source and writable destination, a
successful `copy` streams all of the source's bytes into the destination
(created or truncated), sets the destination's permission bits equal to the
source's, and returns a byte count equal to the destination's final
length. -/
theorem copy_streams_and_sets_perms (fs : FS) (src dst : String)
    (fdSrc : FileData) (hne : src ≠ dst)
    (hsrc : FS.lookupFile fs src = some fdSrc) :
    ∃ n fs3 fdDst,
      (fsCopy fs src dst).fst = Except.ok (n, fs3)
      ∧ FS.lookupFile fs3 dst = some fdDst
      ∧ fdDst.contents = fdSrc.contents
      ∧ fdDst.perms = fdSrc.perms
      ∧ n = fdDst.contents.length := by
  have hother : ∀ (g : FS) (fd : FileData),
      FS.lookupFile (FS.update g dst fd) src = FS.lookupFile g src :=
    fun g fd => FS.lookupFile_update_other g dst src fd hne
  refine ⟨fdSrc.contents.length,
    FS.update
      (FS.update (createTruncate fs dst) dst
        ⟨fdSrc.contents, ((FS.lookupFile fs dst).map FileData.perms).getD defaultPerms⟩)
      dst ⟨fdSrc.contents, fdSrc.perms⟩,
    ⟨fdSrc.contents, fdSrc.perms⟩, ?_, ?_, rfl, rfl, rfl⟩
  · simp [fsCopy, createTruncate, hsrc, hother, FS.lookupFile_update_self]
  · simp [FS.lookupFile_update_self]

theorem copy_streams_and_sets_perms_witness :
    ∃ n fs3 fdDst,
      (fsCopy [("a", ⟨[1, 2, 3], 100⟩)] "a" "b").fst = Except.ok (n, fs3)
      ∧ FS.lookupFile fs3 "b" = some fdDst
      ∧ fdDst.contents = ([1, 2, 3] : List Nat)
      ∧ fdDst.perms = 100
      ∧ n = fdDst.contents.length :=
  copy_streams_and_sets_perms [("a", ⟨[1, 2, 3], 100⟩)] "a" "b" ⟨[1, 2, 3], 100⟩
    (by decide) (by decide)

/-- C7: `read_to_string` on a readable file whose bytes are not valid UTF-8
fails with the decoding error; and any string it does return is exactly the
decoding of the file's bytes, never a corrupted one.  (The modelled function
is total, so no panic is possible.) -/
theorem read_to_string_decoding (metaOk : Bool) (fs : FS) (p : String)
    (fd : FileData) (hlook : FS.lookupFile fs p = some fd) :
    (utf8Decode fd.contents = none →
      (fsReadToString metaOk fs p).fst = Except.error IoError.invalidData)
    ∧ ∀ cps, (fsReadToString metaOk fs p).fst = Except.ok cps →
        utf8Decode fd.contents = some cps := by
  constructor
  · intro hdec
    simp [fsReadToString, hlook, hdec]
  · intro cps hok
    rcases hcase : utf8Decode fd.contents with _ | val
    · simp [fsReadToString, hlook, hcase] at hok
    · simp [fsReadToString, hlook, hcase] at hok
      rw [hok]

theorem read_to_string_decoding_witness :
    (fsReadToString true [("f", ⟨[255], 438⟩)] "f").fst
      = Except.error IoError.invalidData :=
  (read_to_string_decoding true [("f", ⟨[255], 438⟩)] "f" ⟨[255], 438⟩
    (by decide)).1 (by decide)

/-- C9: `read` returns the file's full contents whether or not the metadata
length query succeeds; the only difference the hint makes is the buffer's
pre-sizing, never the returned bytes or the error behaviour. -/
theorem read_size_hint_best_effort (fs : FS) (p : String) :
    (fsRead true fs p).fst = (fsRead false fs p).fst
    ∧ ∀ fd, FS.lookupFile fs p = some fd →
        (fsRead true fs p).fst = Except.ok fd.contents := by
  rcases hcase : FS.lookupFile fs p with _ | fd
  · simp [fsRead, hcase]
  · simp [fsRead, hcase, Vec.withCapacity, Vec.readToEnd]

/-- C8 (amended): the wrapper's debug output never mentions `ManuallyDrop`
(whenever the inner handle's own output does not), because the single field
is rendered through `deref`; the output is the inner handle's own rendering
wrapped in a `FastClose(...)` tuple node — it contains the inner output as
its sole field rather than being identical to it. -/
theorem debug_fmt_hides_manually_drop (H : Type) (dbgH : H → DebugOut)
    (fc : FastClose H)
    (hclean : DebugOut.mentions "ManuallyDrop" (dbgH fc.val) = false) :
    DebugOut.mentions "ManuallyDrop" (fcDebugFmt dbgH fc) = false
    ∧ fcDebugFmt dbgH fc = DebugOut.node "FastClose" [dbgH fc.val] := by
  refine ⟨?_, rfl⟩
  simp only [fcDebugFmt, DebugOut.mentions, DebugOut.mentionsList, hclean,
    Bool.or_false, Bool.false_or]
  decide

theorem debug_fmt_hides_manually_drop_witness :
    DebugOut.mentions "ManuallyDrop"
      (fcDebugFmt (fun _ => DebugOut.node "File" []) (FastClose.new (0 : Nat)))
      = false :=
  (debug_fmt_hides_manually_drop Nat (fun _ => DebugOut.node "File" [])
    (FastClose.new 0) (by decide)).1

/-- C8 (counterexample to the claim as stated): the wrapper's debug output
is NOT identical to the inner handle's own debug output — for an inner
handle rendering as `File`, the wrapper renders as `FastClose(File)`. -/
theorem debug_fmt_not_identical_to_inner :
    fcDebugFmt (fun _ => DebugOut.node "File" []) (FastClose.new (0 : Nat))
      ≠ DebugOut.node "File" [] := by
  intro hcontra
  injection hcontra with h1 h2
  exact absurd h1 (by decide)

/-- C10: a wrapper built from `h` compares equal to the raw handle `h`
whenever `h` compares equal to itself, because `PartialEq<H>` on the wrapper
delegates to the inner handle through `deref`. -/
theorem wrap_eq_raw (H : Type) (eqH : H → H → Bool) (h : H)
    (hrefl : eqH h h = true) :
    FastClose.peq eqH (FastClose.new h) h = true :=
  hrefl

theorem wrap_eq_raw_witness :
    FastClose.peq (fun a b => a == b) (FastClose.new (5 : Nat)) 5 = true :=
  wrap_eq_raw Nat (fun a b => a == b) 5 (by decide)

/-- C4 (amended): the `#[derive(Clone)]` on both `FastClose` definitions
gives the wrapper a clone operation exactly when the inner handle type has
one, and that clone duplicates the inner handle into a fresh wrapper rather
than sharing it; eligible handle types (such as `File`) are not cloneable,
so their wrappers expose no clone, and the wrapper never implements `Copy`
(it has a `Drop` impl). -/
theorem fastclose_clone_clones_inner (H : Type) [RustClone H]
    (fc : FastClose H) :
    (RustClone.clone fc).val = RustClone.clone fc.val :=
  rfl

/-- C4 (counterexample to the claim as stated): for a cloneable handle type
(nothing in the `H: Send + 'static` bound forbids `Clone`), the derived
impl does give the wrapper a clone operation — here evaluated at a concrete
wrapper over a numeric mock handle. -/
theorem fastclose_clone_exists_for_cloneable_handle :
    RustClone.clone (FastClose.new (37 : Nat)) = FastClose.new 37 :=
  rfl
